import Mathlib

/-!
# The parallel web crawler of `webCrawler.c`

A shallow embedding of `src/webCrawler.c` and the properties of its
coordination loop.

Conventions of the embedding.

* C strings are `String`; raw buffers are `List Nat` (one entry per byte).
* `size_t` arithmetic is `Nat` arithmetic modulo `2 ^ 64`.
* libcurl, libxml2 and MPI are outside the repository.  The HTML parser is a
  parameter `htmlReadMemory`; the result of `curl_easy_perform` and the
  contents of uninitialised locals are inputs of a round (`RoundEnv`); the MPI
  calls follow the MPI standard: a receive consumes one pending message and
  blocks when there is none, `MPI_Allgatherv` stores block `j` at
  `displs[j]`.
* Ghost logs (`stores`, `log`) record what the code did; they do not
  influence it.
-/

namespace WebCrawler

/-! ## Constants -/

/-- The macro `MAX_LINKS_PER_PROCESS` (line 9). -/
def MAX_LINKS_PER_PROCESS : Nat := 2

/-- The macro `MAX_PAGES_TO_CRAWL` (line 10). -/
def MAX_PAGES_TO_CRAWL : Nat := 4

/-- The capacity of `char pageBuffer[4096]` (line 117). -/
def PAGE_BUFFER_SIZE : Nat := 4096

/-- One more than `SIZE_MAX`: `size_t` products wrap modulo this value. -/
def SIZE_T_MODULUS : Nat := 2 ^ 64

/-! ## `WriteCallback` (lines 13-18) -/

/-- The effect of one call of `WriteCallback`: the stores `memcpy` performs,
as pairs (index into the destination, byte), and the returned value. -/
structure WriteEffect where
  writes : List (Nat × Nat)
  returned : Nat
deriving DecidableEq, Repr

/-- `WriteCallback(contents, size, nmemb, userp)`: `totalSize = size * nmemb`
in `size_t`, then `memcpy(buffer, contents, totalSize)` stores byte `i` of
`contents` at `buffer[i]` for every `i < totalSize`; returns `totalSize`.
`contents i` is the byte at offset `i` of the chunk libcurl hands over. -/
def WriteCallback (contents : Nat → Nat) (size nmemb : Nat) : WriteEffect :=
  let totalSize := (size * nmemb) % SIZE_T_MODULUS
  { writes := (List.range totalSize).map (fun i => (i, contents i))
    returned := totalSize }

/-- All stores of one transfer: libcurl calls `WriteCallback` once per chunk,
every time with the same `userp = pageBuffer` (line 121). -/
def fetchWrites (chunks : List ((Nat → Nat) × Nat × Nat)) : List (Nat × Nat) :=
  chunks.flatMap (fun c => (WriteCallback c.1 c.2.1 c.2.2).writes)

/-! ## The libxml2 document tree -/

/-- The values of `xmlElementType` the code distinguishes. -/
inductive xmlElementType
  | XML_ELEMENT_NODE
  | XML_TEXT_NODE
  | XML_COMMENT_NODE
  | XML_DTD_NODE
deriving DecidableEq, Repr

/-- A `xmlNodePtr`: `NULL`, or a node with its `type`, `name`, attributes
(`properties`), first child (`children`) and next sibling (`next`). -/
inductive xmlNodePtr
  | NULL
  | node (type : xmlElementType) (name : Option String)
      (properties : List (String × String)) (children : xmlNodePtr) (next : xmlNodePtr)
deriving DecidableEq, Repr

/-- A `htmlDocPtr` that is not `NULL`: the first top-level node of the
document. -/
structure htmlDoc where
  children : xmlNodePtr
deriving DecidableEq, Repr

/-- `xmlDocGetRootElement`: the first top-level node of type
`XML_ELEMENT_NODE`, `NULL` when there is none. -/
def firstElement : xmlNodePtr → xmlNodePtr
  | .NULL => .NULL
  | .node ty name props children next =>
    if ty = .XML_ELEMENT_NODE then .node ty name props children next
    else firstElement next

/-- `xmlDocGetRootElement(doc)`. -/
def xmlDocGetRootElement (doc : htmlDoc) : xmlNodePtr :=
  firstElement doc.children

/-- `xmlGetProp(cur, name)`: the value of the attribute, `none` for `NULL`. -/
def xmlGetProp (properties : List (String × String)) (name : String) : Option String :=
  properties.lookup name

/-! ## `ExtractLinksFromHTML` (lines 21-51) -/

/-- The caller-owned output of `ExtractLinksFromHTML`: the array
`discoveredLinks` (slot contents), the counter `*numLinks`, and the ghost log
`stores` of the indices the function stored into, oldest first. -/
structure LinkBuffer where
  discoveredLinks : List String
  numLinks : Nat
  stores : List Nat
deriving DecidableEq, Repr

/-- Line 42: `discoveredLinks[(*numLinks)++] = strdup(href)`. -/
def storeLink (b : LinkBuffer) (href : String) : LinkBuffer :=
  { discoveredLinks := b.discoveredLinks.set b.numLinks href
    numLinks := b.numLinks + 1
    stores := b.stores ++ [b.numLinks] }

/-- The body of the `while` loop for one node (lines 36-46). -/
def visitNode (ty : xmlElementType) (name : Option String)
    (properties : List (String × String)) (b : LinkBuffer) : LinkBuffer :=
  if ty = .XML_ELEMENT_NODE then
    match name with
    | none => b
    | some nm =>
      if nm = "a" then
        match xmlGetProp properties "href" with
        | none => b
        | some href => if b.numLinks < MAX_LINKS_PER_PROCESS then storeLink b href else b
      else b
  else b

/-- The loop of lines 35-48: `while (cur != NULL) { ...; cur = cur->next; }`.
It follows `next` only. -/
def extractLoop : xmlNodePtr → LinkBuffer → LinkBuffer
  | .NULL, b => b
  | .node ty name props _ next, b => extractLoop next (visitNode ty name props b)

/-- `strlen`-delimited content of a buffer: the bytes before the first NUL. -/
def cString (buf : List Nat) : List Nat :=
  buf.takeWhile (fun c => c != 0)

/-- `ExtractLinksFromHTML(htmlContent, discoveredLinks, numLinks)`.
`htmlReadMemory` is the libxml2 parser applied to the first
`strlen(htmlContent)` bytes; `none` is a `NULL` document. -/
def ExtractLinksFromHTML (htmlReadMemory : List Nat → Option htmlDoc)
    (htmlContent : List Nat) (b : LinkBuffer) : LinkBuffer :=
  match htmlReadMemory (cString htmlContent) with
  | none => b
  | some doc =>
    match xmlDocGetRootElement doc with
    | .NULL => b
    | cur => extractLoop cur b

/-- The stores of `b2` are those of `b1` followed by stores at indices below
the capacity. -/
def StoresWithin (b1 b2 : LinkBuffer) : Prop :=
  ∃ added : List Nat, b2.stores = b1.stores ++ added ∧ ∀ i ∈ added, i < MAX_LINKS_PER_PROCESS

/-- Spec-side definition: the `href` values of all anchor elements of a
subtree and its following siblings, in document order (a node, then its
children, then its next sibling). -/
def documentHrefs : xmlNodePtr → List String
  | .NULL => []
  | .node ty name props children next =>
    (if ty = .XML_ELEMENT_NODE ∧ name = some "a" then (xmlGetProp props "href").toList else [])
      ++ documentHrefs children ++ documentHrefs next

/-! ## Initial assignment by rank 0 (lines 66-97) -/

/-- The array `seed_urls` of the program (lines 66-70). -/
def seed_urls : List String :=
  [ "https://example.com",
    "https://phet-dev.colorado.edu/html/build-an-atom/0.0.0-3/simple-text-only-test-page.html",
    "https://www.york.ac.uk/teaching/cws/wws/webpage1.html" ]

/-- One `MPI_Send` of rank 0: the destination rank and the string read from
`seeds[urlIndex]`; `none` records that `urlIndex` lay past the end of the
array, where the read has no defined value. -/
structure Message where
  dest : Nat
  urlIndex : Nat
  payload : Option String
deriving DecidableEq, Repr

/-- `sizeof(seeds)` for an array of `char *`: the number of entries times
the size of one pointer. -/
def sizeofArray (sizeofCharPtr : Nat) (seeds : List String) : Nat :=
  seeds.length * sizeofCharPtr

/-- One iteration of the `for` loop of lines 86-96; the state is
`urlsAssigned` and the messages sent so far. -/
def assignStep (sizeofCharPtr : Nat) (seeds : List String)
    (st : Nat × List Message) (i : Nat) : Nat × List Message :=
  let urlIndex := st.1
  if urlIndex < sizeofArray sizeofCharPtr seeds then
    (st.1 + 1, st.2 ++ [{ dest := i, urlIndex := urlIndex, payload := seeds.get? urlIndex }])
  else st

/-- Lines 84-97 on rank 0: the messages sent, in order, for `size`
processes. -/
def assignSeeds (sizeofCharPtr : Nat) (seeds : List String) (size : Nat) : List Message :=
  ((List.range size).foldl (assignStep sizeofCharPtr seeds) (0, [])).2

/-- The payloads pending for rank `i` (source 0, tag 0), in sending order. -/
def mailboxOf (msgs : List Message) (i : Nat) : List (Option String) :=
  (msgs.filter (fun m => m.dest = i)).map (fun m => m.payload)

/-! ## The collectives (lines 139-146) -/

/-- `MPI_Allgather(&numLinks, 1, MPI_INT, totalLinks, 1, MPI_INT, ...)`: entry
`j` of the receive buffer becomes the value rank `j` contributed; the other
entries of `totalLinks` keep what they held. -/
def MPI_Allgather (contributed : List Nat) (recvbuf : List Nat) : List Nat :=
  contributed ++ recvbuf.drop contributed.length

/-- Lines 141-144: `for (i = 0; i < size; i++) totalNumLinks += totalLinks[i]`. -/
def sumTotalLinks (size : Nat) (totalLinks : List Nat) : Nat :=
  (List.range size).foldl (fun acc i => acc + totalLinks.getD i 0) 0

/-- Store `block` into `recvbuf` from index `displ` on; entries outside the
block keep their value. -/
def storeBlock {α : Type} (recvbuf : List α) (displ : Nat) (block : List α) : List α :=
  recvbuf.enum.map (fun ix =>
    if displ ≤ ix.1 then (block.get? (ix.1 - displ)).getD ix.2 else ix.2)

/-- The receive side of `MPI_Allgatherv` on one process: for each rank `j`
in ascending order, the `recvcounts[j]` units rank `j` sent are stored at
`recvbuf[displs[j]]` onwards.  (The standard leaves overlapping blocks
undefined; here a later rank overwrites an earlier one.) -/
def MPI_Allgatherv {α : Type} (sent : List (List α)) (recvbuf : List α)
    (recvcounts displs : List Nat) : List α :=
  (List.range sent.length).foldl
    (fun buf j => storeBlock buf (displs.getD j 0) ((sent.getD j []).take (recvcounts.getD j 0)))
    recvbuf

/-- Lines 140 and 146 together: `totalLinks` holds every rank's `numLinks`,
and the call `MPI_Allgatherv(discoveredLinks, numLinks, MPI_CHAR, allLinks,
totalLinks, totalLinks, MPI_CHAR, ...)` passes `totalLinks` both as
`recvcounts` and as `displs`.  `sendbufs[j]` is the send buffer of rank `j`
in units of the datatype, `numLinks[j]` its count. -/
def gatherAllLinks {α : Type} (sendbufs : List (List α)) (numLinks : List Nat)
    (allLinks : List α) : List α :=
  let totalLinks := MPI_Allgather numLinks []
  MPI_Allgatherv (List.zipWith (fun buf c => buf.take c) sendbufs numLinks) allLinks
    totalLinks totalLinks

/-- Spec-side definition: the table the specification describes, the
submitted buffers concatenated in ascending rank order. -/
def concatInRankOrder {α : Type} (sendbufs : List (List α)) (numLinks : List Nat) : List α :=
  (List.zipWith (fun buf c => buf.take c) sendbufs numLinks).flatten

/-! ## One process of the crawl loop (lines 72-78 and 103-169) -/

/-- What a process meets in one round that the program text does not fix. -/
structure RoundEnv where
  -- whether `curl_easy_perform` returned `CURLE_OK`
  fetchOk : Bool
  -- the bytes the transfer left in `pageBuffer`
  pageBuffer : List Nat
  -- the contents of the local array `cleanedHTML`, which is never written
  cleanedHTML : List Nat
  -- the contents of the local array `totalLinks` before `MPI_Allgather`
  totalLinks : List Nat
  -- the `numLinks` of all ranks as `MPI_Allgather` delivers them (one entry
  -- per rank; the entry of the own rank is replaced by the own count)
  peers : List Nat
deriving DecidableEq, Repr

/-- Ghost record of one completed round. -/
structure RoundRecord where
  pagesCrawled : Nat
  numLinksAtEntry : Nat
  url : String
  fetchOk : Bool
  submitted : List String
  numLinks : Nat
  totalNumLinks : Nat
deriving DecidableEq, Repr

/-- The variables of `main` that live across rounds, and the ghost log. -/
structure Proc where
  rank : Nat
  size : Nat
  buf : LinkBuffer
  pagesCrawled : Nat
  log : List RoundRecord
deriving DecidableEq, Repr

/-- Lines 72-78: `numLinks = 0`, `pagesCrawled = 0`; the slots of
`discoveredLinks` hold no link yet. -/
def initProc (rank size : Nat) : Proc :=
  { rank := rank
    size := size
    buf := { discoveredLinks := List.replicate MAX_LINKS_PER_PROCESS "", numLinks := 0, stores := [] }
    pagesCrawled := 0
    log := [] }

/-- Lines 114-136 for a received URL that is not empty: the transfer, then on
`CURLE_OK` the call `ExtractLinksFromHTML(cleanedHTML, discoveredLinks,
&numLinks)`. -/
def fetchAndExtract (htmlReadMemory : List Nat → Option htmlDoc) (env : RoundEnv)
    (b : LinkBuffer) : LinkBuffer :=
  if env.fetchOk then ExtractLinksFromHTML htmlReadMemory env.cleanedHTML b else b

/-- Lines 139-168 once the collectives have delivered `gathered`: the total,
the reset `numLinks = 0`, and `pagesCrawled++`.  The gather into `allLinks`
(line 146) is `gatherAllLinks`; `allLinks` is never read afterwards and is not
part of `Proc`.  The `free` calls of lines 149-151 leave the slots of
`discoveredLinks` as they are. -/
def finishRound (gathered : List Nat) (env : RoundEnv) (url : String) (p : Proc)
    (b : LinkBuffer) : Proc :=
  let totalLinks := MPI_Allgather gathered env.totalLinks
  let totalNumLinks := sumTotalLinks p.size totalLinks
  { p with
    buf := { b with numLinks := 0 }
    pagesCrawled := p.pagesCrawled + 1
    log := p.log ++ [{ pagesCrawled := p.pagesCrawled
                       numLinksAtEntry := p.buf.numLinks
                       url := url
                       fetchOk := env.fetchOk
                       submitted := b.discoveredLinks.take b.numLinks
                       numLinks := b.numLinks
                       totalNumLinks := totalNumLinks }] }

/-- One completed round of one process, the other processes seen through
`env.peers`. -/
def roundBody (htmlReadMemory : List Nat → Option htmlDoc) (env : RoundEnv) (url : String)
    (p : Proc) : Proc :=
  let b := fetchAndExtract htmlReadMemory env p.buf
  finishRound (env.peers.set p.rank b.numLinks) env url p b

/-- How the `while` loop of one process ends. -/
inductive LoopExit
  -- the condition `pagesCrawled < MAX_PAGES_TO_CRAWL` failed (line 103)
  | finished
  -- the `break` of line 111
  | brokeOnEmptyUrl
  -- `MPI_Recv` of line 106 has no message to receive and never returns
  | blockedInRecv
deriving DecidableEq, Repr

/-- The loop of lines 103-169 for one process.  `mailbox` holds the messages
pending from rank 0; every round receives the first of them.  `env k` is the
environment of the round entered with `pagesCrawled = k`.  The collectives of
a round this process reaches are taken to complete, the other ranks being
seen through `env`; `fleetRound` is the round of all ranks together. -/
def crawlLoop (htmlReadMemory : List Nat → Option htmlDoc) (env : Nat → RoundEnv) :
    List String → Proc → LoopExit × Proc
  | [], p =>
    if p.pagesCrawled < MAX_PAGES_TO_CRAWL then (.blockedInRecv, p) else (.finished, p)
  | url :: rest, p =>
    if p.pagesCrawled < MAX_PAGES_TO_CRAWL then
      if url = "" then (.brokeOnEmptyUrl, p)
      else crawlLoop htmlReadMemory env rest (roundBody htmlReadMemory (env p.pagesCrawled) url p)
    else (.finished, p)

/-! ## One round of the whole fleet -/

/-- One rank at the start of a round: its state, the message `MPI_Recv`
delivers (`none`: no message pending) and its environment. -/
structure RankRound where
  proc : Proc
  msg : Option String
  env : RoundEnv
deriving DecidableEq, Repr

/-- Whether the rank reaches the collectives of this round: the loop
condition holds, a message arrives and it is not empty. -/
def reachesAllgather (r : RankRound) : Bool :=
  decide (r.proc.pagesCrawled < MAX_PAGES_TO_CRAWL) &&
    match r.msg with
    | none => false
    | some url => url != ""

/-- The count a rank contributes to `MPI_Allgather`. -/
def submittedCount (htmlReadMemory : List Nat → Option htmlDoc) (r : RankRound) : Nat :=
  (fetchAndExtract htmlReadMemory r.env r.proc.buf).numLinks

/-- One round of all ranks.  The collectives complete only when every rank
takes part; otherwise the round never completes (`none`). -/
def fleetRound (htmlReadMemory : List Nat → Option htmlDoc) (rs : List RankRound) :
    Option (List Proc) :=
  if rs.all reachesAllgather then
    some (rs.map (fun r =>
      finishRound (rs.map (submittedCount htmlReadMemory)) r.env (r.msg.getD "") r.proc
        (fetchAndExtract htmlReadMemory r.env r.proc.buf)))
  else none

/-- The fleet before the first round: rank `i` of `size` in its initial
state. -/
def initFleet (size : Nat) : List Proc :=
  (List.range size).map (fun i => initProc i size)

/-- Pair every process with what the round hands its rank. -/
def attachInputs (ins : Nat → Option String × RoundEnv) (ps : List Proc) : List RankRound :=
  ps.map (fun p => { proc := p, msg := (ins p.rank).1, env := (ins p.rank).2 })

/-- Successive rounds of the fleet, the inputs of each round given per rank;
`none` when some round never completes. -/
def fleetRun (htmlReadMemory : List Nat → Option htmlDoc) :
    List (Nat → Option String × RoundEnv) → List Proc → Option (List Proc)
  | [], ps => some ps
  | ins :: more, ps =>
    match fleetRound htmlReadMemory (attachInputs ins ps) with
    | none => none
    | some ps1 => fleetRun htmlReadMemory more ps1

/-- The count a process submitted in its last completed round. -/
def lastNumLinks (q : Proc) : Nat :=
  (q.log.getLast?.map (fun r => r.numLinks)).getD 0

/-- The state of a fleet of `size` processes at the start of a round, with `k`
rounds completed. -/
def FleetAt (size k : Nat) (ps : List Proc) : Prop :=
  ps.map (fun p => (p.rank, p.size, p.buf.numLinks, p.pagesCrawled)) =
    (List.range size).map (fun i => (i, size, 0, k))

/-! ## Sample data -/

/-- An anchor element `<a href=...>` without children. -/
def anchor (href : String) (next : xmlNodePtr) : xmlNodePtr :=
  .node .XML_ELEMENT_NODE (some "a") [("href", href)] .NULL next

/-- The document `<html><body><a href="a"><a href="b"><a href="c"><a href="d">`:
the root element `html` has no sibling, the anchors are children of `body`. -/
def samplePage : htmlDoc :=
  { children :=
      .node .XML_ELEMENT_NODE (some "html") []
        (.node .XML_ELEMENT_NODE (some "body") []
          (anchor "a" (anchor "b" (anchor "c" (anchor "d" .NULL)))) .NULL)
        .NULL }

/-- A document whose top-level nodes are three anchors. -/
def flatPage : htmlDoc :=
  { children := anchor "a" (anchor "b" (anchor "c" .NULL)) }

/-- An empty `discoveredLinks` with `numLinks = 0`. -/
def emptyLinks : LinkBuffer :=
  { discoveredLinks := List.replicate MAX_LINKS_PER_PROCESS "", numLinks := 0, stores := [] }

/-- A stand-in for the parser that knows one page: the bytes `<a>` (60, 97,
62) parse to `flatPage`, everything else to a `NULL` document. -/
def sampleParser (bytes : List Nat) : Option htmlDoc :=
  if bytes = [60, 97, 62] then some flatPage else none

/-- A round in which the transfer succeeds and leaves `<a>` in `pageBuffer`,
while `cleanedHTML` starts with a NUL byte. -/
def sampleEnv : RoundEnv :=
  { fetchOk := true, pageBuffer := [60, 97, 62, 0], cleanedHTML := [0, 60, 97, 62],
    totalLinks := [], peers := [0, 0, 0] }

/-- A round in which the transfer fails. -/
def failedEnv : RoundEnv :=
  { sampleEnv with fetchOk := false }

/-- A round in which `cleanedHTML` happens to hold the bytes `<a>`. -/
def luckyEnv : RoundEnv :=
  { sampleEnv with cleanedHTML := [60, 97, 62, 0] }

/-- Round inputs for a fleet: every rank receives a seed and its transfer
succeeds. -/
def sampleRound (_rank : Nat) : Option String × RoundEnv :=
  (some "https://example.com", luckyEnv)

/-- Round inputs for a fleet: as `sampleRound`, but the transfer of rank 1
fails. -/
def sampleRoundRank1Fails (rank : Nat) : Option String × RoundEnv :=
  (some "https://example.com", if rank = 1 then failedEnv else luckyEnv)

/-- The fleet of three after one round in which every transfer succeeded. -/
def fleetAfterSampleRound : List Proc :=
  (fleetRun sampleParser [sampleRound] (initFleet 3)).getD []

/-! # Theorems -/

/-! ## Extraction: bounds -/

theorem StoresWithin.refl (b : LinkBuffer) : StoresWithin b b :=
  ⟨[], by simp, by simp⟩

theorem StoresWithin.trans {b1 b2 b3 : LinkBuffer} (h12 : StoresWithin b1 b2)
    (h23 : StoresWithin b2 b3) : StoresWithin b1 b3 := by
  obtain ⟨a1, e1, w1⟩ := h12
  obtain ⟨a2, e2, w2⟩ := h23
  refine ⟨a1 ++ a2, by rw [e2, e1, List.append_assoc], ?_⟩
  intro i hi
  rcases List.mem_append.mp hi with h | h
  · exact w1 i h
  · exact w2 i h

theorem visitNode_bound (ty : xmlElementType) (name : Option String)
    (props : List (String × String)) (b : LinkBuffer) (h : b.numLinks ≤ MAX_LINKS_PER_PROCESS) :
    (visitNode ty name props b).numLinks ≤ MAX_LINKS_PER_PROCESS ∧
      StoresWithin b (visitNode ty name props b) := by
  unfold visitNode
  split
  · split
    · exact ⟨h, StoresWithin.refl b⟩
    · split
      · split
        · exact ⟨h, StoresWithin.refl b⟩
        · split
          · rename_i hlt
            refine ⟨?_, [b.numLinks], rfl, ?_⟩
            · show b.numLinks + 1 ≤ MAX_LINKS_PER_PROCESS
              exact hlt
            · intro i hi
              rw [List.mem_singleton] at hi
              rw [hi]
              exact hlt
          · exact ⟨h, StoresWithin.refl b⟩
      · exact ⟨h, StoresWithin.refl b⟩
  · exact ⟨h, StoresWithin.refl b⟩

theorem extractLoop_bound (cur : xmlNodePtr) :
    ∀ b : LinkBuffer, b.numLinks ≤ MAX_LINKS_PER_PROCESS →
      (extractLoop cur b).numLinks ≤ MAX_LINKS_PER_PROCESS ∧ StoresWithin b (extractLoop cur b) := by
  induction cur with
  | NULL => intro b h; exact ⟨h, StoresWithin.refl b⟩
  | node ty name props children next _ ihn =>
    intro b h
    have hv := visitNode_bound ty name props b h
    have hn := ihn (visitNode ty name props b) hv.1
    exact ⟨hn.1, hv.2.trans hn.2⟩

theorem ExtractLinksFromHTML_bound (htmlReadMemory : List Nat → Option htmlDoc)
    (htmlContent : List Nat) (b : LinkBuffer) (h : b.numLinks ≤ MAX_LINKS_PER_PROCESS) :
    (ExtractLinksFromHTML htmlReadMemory htmlContent b).numLinks ≤ MAX_LINKS_PER_PROCESS ∧
      StoresWithin b (ExtractLinksFromHTML htmlReadMemory htmlContent b) := by
  unfold ExtractLinksFromHTML
  split
  · exact ⟨h, StoresWithin.refl b⟩
  · split
    · exact ⟨h, StoresWithin.refl b⟩
    · exact extractLoop_bound _ b h

theorem fetchAndExtract_bound (htmlReadMemory : List Nat → Option htmlDoc) (env : RoundEnv)
    (b : LinkBuffer) (h : b.numLinks ≤ MAX_LINKS_PER_PROCESS) :
    (fetchAndExtract htmlReadMemory env b).numLinks ≤ MAX_LINKS_PER_PROCESS ∧
      StoresWithin b (fetchAndExtract htmlReadMemory env b) := by
  unfold fetchAndExtract
  split
  · exact ExtractLinksFromHTML_bound htmlReadMemory env.cleanedHTML b h
  · exact ⟨h, StoresWithin.refl b⟩

/-! ## The round and the loop of one process -/

theorem roundBody_numLinks (parse : List Nat → Option htmlDoc) (env : RoundEnv)
    (url : String) (p : Proc) :
    (roundBody parse env url p).buf.numLinks = 0 := rfl

theorem roundBody_log (parse : List Nat → Option htmlDoc) (env : RoundEnv)
    (url : String) (p : Proc) :
    ∃ rec : RoundRecord, (roundBody parse env url p).log = p.log ++ [rec] ∧
      rec.pagesCrawled = p.pagesCrawled ∧ rec.numLinksAtEntry = p.buf.numLinks ∧
      rec.url = url ∧ rec.fetchOk = env.fetchOk ∧
      rec.numLinks = (fetchAndExtract parse env p.buf).numLinks :=
  ⟨_, rfl, rfl, rfl, rfl, rfl, rfl⟩

/-- Every round of the loop is entered with `numLinks = 0` and submits at
most `MAX_LINKS_PER_PROCESS` links. -/
theorem crawlLoop_numLinks (parse : List Nat → Option htmlDoc) (env : Nat → RoundEnv)
    (mailbox : List String) :
    ∀ p : Proc, p.buf.numLinks = 0 →
      (∀ r ∈ p.log, r.numLinksAtEntry = 0 ∧ r.numLinks ≤ MAX_LINKS_PER_PROCESS) →
      (crawlLoop parse env mailbox p).2.buf.numLinks = 0 ∧
      ∀ r ∈ (crawlLoop parse env mailbox p).2.log,
        r.numLinksAtEntry = 0 ∧ r.numLinks ≤ MAX_LINKS_PER_PROCESS := by
  induction mailbox with
  | nil =>
    intro p h0 hlog
    unfold crawlLoop
    by_cases h : p.pagesCrawled < MAX_PAGES_TO_CRAWL <;> simp [h] <;> exact ⟨h0, hlog⟩
  | cons url rest ih =>
    intro p h0 hlog
    unfold crawlLoop
    by_cases h : p.pagesCrawled < MAX_PAGES_TO_CRAWL
    · by_cases hu : url = ""
      · simp only [h, hu, if_true]
        exact ⟨h0, hlog⟩
      · simp only [h, hu, if_true, if_false]
        apply ih
        · rfl
        · obtain ⟨rec, hl, -, h2, -, -, h5⟩ := roundBody_log parse (env p.pagesCrawled) url p
          intro r hr
          rw [hl] at hr
          rcases List.mem_append.mp hr with hr | hr
          · exact hlog r hr
          · rw [List.mem_singleton] at hr
            subst hr
            refine ⟨by rw [h2, h0], ?_⟩
            rw [h5]
            exact (fetchAndExtract_bound parse _ p.buf (by rw [h0]; exact Nat.zero_le _)).1
    · simp only [h, if_false]
      exact ⟨h0, hlog⟩

/-! ## The collectives and the fleet -/

theorem sumTotalLinks_succ (n : Nat) (l : List Nat) :
    sumTotalLinks (n + 1) l = sumTotalLinks n l + l.getD n 0 := by
  unfold sumTotalLinks
  rw [List.range_succ, List.foldl_append]
  rfl

theorem sumTotalLinks_take (l : List Nat) :
    ∀ n, n ≤ l.length → sumTotalLinks n l = (l.take n).sum := by
  intro n
  induction n with
  | zero => intro _; simp [sumTotalLinks]
  | succ m ih =>
    intro h
    have hm : m < l.length := h
    rw [sumTotalLinks_succ, ih (by omega), List.take_succ, List.sum_append]
    simp [List.getD, List.getElem?_eq_getElem hm]

/-- The summation loop over the gathered counts yields their sum, whatever
`totalLinks` held before. -/
theorem sumTotalLinks_Allgather (counts garbage : List Nat) :
    sumTotalLinks counts.length (MPI_Allgather counts garbage) = counts.sum := by
  unfold MPI_Allgather
  rw [sumTotalLinks_take _ _ (by simp)]
  simp

theorem initFleet_FleetAt (size : Nat) : FleetAt size 0 (initFleet size) := by
  unfold FleetAt initFleet
  rw [List.map_map]
  rfl

theorem FleetAt.length {size k : Nat} {ps : List Proc} (h : FleetAt size k ps) :
    ps.length = size := by
  have := congrArg List.length h
  simpa using this

theorem FleetAt.mem {size k : Nat} {ps : List Proc} (h : FleetAt size k ps) :
    ∀ p ∈ ps, p.rank < size ∧ p.size = size ∧ p.buf.numLinks = 0 ∧ p.pagesCrawled = k := by
  intro p hp
  have hm : (p.rank, p.size, p.buf.numLinks, p.pagesCrawled) ∈
      (List.range size).map (fun i => (i, size, 0, k)) := by
    rw [← h]
    exact List.mem_map.mpr ⟨p, hp, rfl⟩
  obtain ⟨i, hi, he⟩ := List.mem_map.mp hm
  simp only [Prod.mk.injEq] at he
  obtain ⟨h1, h2, h3, h4⟩ := he
  exact ⟨by rw [← h1]; exact List.mem_range.mp hi, h2.symm, h3.symm, h4.symm⟩

theorem fleetRound_FleetAt (parse : List Nat → Option htmlDoc) {size k : Nat}
    {rs : List RankRound} {ps1 : List Proc}
    (h : FleetAt size k (rs.map (fun r => r.proc))) (hr : fleetRound parse rs = some ps1) :
    FleetAt size (k + 1) ps1 := by
  unfold fleetRound at hr
  split at hr
  · injection hr with hr
    subst hr
    unfold FleetAt at h ⊢
    rw [List.map_map] at h ⊢
    have e : ((fun p : Proc => (p.rank, p.size, p.buf.numLinks, p.pagesCrawled)) ∘ fun r : RankRound =>
        finishRound (rs.map (submittedCount parse)) r.env (r.msg.getD "") r.proc
          (fetchAndExtract parse r.env r.proc.buf)) =
        (fun t : Nat × Nat × Nat × Nat => (t.1, t.2.1, 0, t.2.2.2 + 1)) ∘
          ((fun p : Proc => (p.rank, p.size, p.buf.numLinks, p.pagesCrawled)) ∘ fun r : RankRound => r.proc) := by
      funext r
      rfl
    rw [e, ← List.map_map, h, List.map_map]
    rfl
  · exact absurd hr (by simp)

theorem attachInputs_proc (ins : Nat → Option String × RoundEnv) (ps : List Proc) :
    (attachInputs ins ps).map (fun r => r.proc) = ps := by
  unfold attachInputs
  rw [List.map_map]
  exact List.map_id ps

/-- The completed rounds of a run keep the fleet in shape. -/
theorem fleetRun_FleetAt (parse : List Nat → Option htmlDoc) (size : Nat)
    (rounds : List (Nat → Option String × RoundEnv)) :
    ∀ (k : Nat) (ps ps1 : List Proc), FleetAt size k ps → fleetRun parse rounds ps = some ps1 →
      FleetAt size (k + rounds.length) ps1 := by
  induction rounds with
  | nil =>
    intro k ps ps1 h hr
    unfold fleetRun at hr
    injection hr with hr
    subst hr
    simpa using h
  | cons ins more ih =>
    intro k ps ps1 h hr
    unfold fleetRun at hr
    split at hr
    · exact absurd hr (by simp)
    · rename_i ps2 h2
      have := ih (k + 1) ps2 ps1
        (fleetRound_FleetAt parse (by rw [attachInputs_proc]; exact h) h2) hr
      rw [List.length_cons]
      have e : k + (more.length + 1) = k + 1 + more.length := by omega
      rw [e]
      exact this

theorem lastNumLinks_finishRound (gathered : List Nat) (env : RoundEnv) (url : String)
    (p : Proc) (b : LinkBuffer) :
    lastNumLinks (finishRound gathered env url p b) = b.numLinks := by
  simp [lastNumLinks, finishRound]

theorem finishRound_getLast (gathered : List Nat) (env : RoundEnv) (url : String)
    (p : Proc) (b : LinkBuffer) :
    (finishRound gathered env url p b).log.getLast? =
      some { pagesCrawled := p.pagesCrawled
             numLinksAtEntry := p.buf.numLinks
             url := url
             fetchOk := env.fetchOk
             submitted := b.discoveredLinks.take b.numLinks
             numLinks := b.numLinks
             totalNumLinks := sumTotalLinks p.size (MPI_Allgather gathered env.totalLinks) } := by
  simp [finishRound]

theorem reachesAllgather_attach (ins : Nat → Option String × RoundEnv) (size k : Nat)
    (ps : List Proc) (hF : FleetAt size k ps) (hloop : k < MAX_PAGES_TO_CRAWL)
    (hmsg : ∀ i, i < size → ∃ u, (ins i).1 = some u ∧ u ≠ "") :
    (attachInputs ins ps).all reachesAllgather = true := by
  rw [List.all_eq_true]
  intro r hr
  unfold attachInputs at hr
  obtain ⟨p, hp, rfl⟩ := List.mem_map.mp hr
  obtain ⟨h1, -, -, h4⟩ := hF.mem p hp
  obtain ⟨u, hu, hne⟩ := hmsg p.rank h1
  simp [reachesAllgather, h4, hloop, hu, hne]

/-! ## Initial assignment -/

theorem assignSeeds_fold (ptr : Nat) (seeds : List String) (n : Nat) :
    (List.range n).foldl (assignStep ptr seeds) (0, []) =
      (min n (sizeofArray ptr seeds),
        (List.range (min n (sizeofArray ptr seeds))).map
          (fun i => { dest := i, urlIndex := i, payload := seeds.get? i })) := by
  induction n with
  | zero => simp
  | succ m ih =>
    rw [List.range_succ, List.foldl_append, ih]
    simp only [List.foldl_cons, List.foldl_nil, assignStep]
    by_cases h : m < sizeofArray ptr seeds
    · have e1 : min m (sizeofArray ptr seeds) = m := by omega
      have e2 : min (m + 1) (sizeofArray ptr seeds) = m + 1 := by omega
      rw [e1, e2, if_pos h, List.range_succ, List.map_append]
      rfl
    · have e1 : min m (sizeofArray ptr seeds) = sizeofArray ptr seeds := by omega
      have e2 : min (m + 1) (sizeofArray ptr seeds) = sizeofArray ptr seeds := by omega
      rw [e1, e2, if_neg (by omega)]

/-- What the assignment loop does: rank `i` is sent `seeds[i]` for every
`i` below both `size` and `sizeof(seeds)`, the byte size of the array. -/
theorem assignSeeds_eq (ptr : Nat) (seeds : List String) (size : Nat) :
    assignSeeds ptr seeds size =
      (List.range (min size (seeds.length * ptr))).map
        (fun i => { dest := i, urlIndex := i, payload := seeds.get? i }) := by
  unfold assignSeeds
  rw [assignSeeds_fold]
  rfl

/-- The stores of one call of `WriteCallback` are exactly the indices below
`size * nmemb` (in `size_t`). -/
theorem WriteCallback_writes_mem (contents : Nat → Nat) (size nmemb i v : Nat) :
    (i, v) ∈ (WriteCallback contents size nmemb).writes ↔
      i < (size * nmemb) % SIZE_T_MODULUS ∧ v = contents i := by
  unfold WriteCallback
  simp only [List.mem_map, List.mem_range, Prod.mk.injEq]
  constructor
  · rintro ⟨j, hj, rfl, rfl⟩
    exact ⟨hj, rfl⟩
  · rintro ⟨hi, rfl⟩
    exact ⟨i, hi, rfl, rfl⟩

/-! ## The claims -/

/-- C1 (code defect).  With four processes and the three seeds of the
program, rank 0 sends four messages: the loop bound is `sizeof(seed_urls)`,
24 bytes, not the number of entries, so rank 3 is sent a message whose text is
read from `seed_urls[3]`, past the end of the array. -/
theorem C1_assignSeeds_reads_past_seed_urls :
    sizeofArray 8 seed_urls = 24 ∧
    assignSeeds 8 seed_urls 4 =
      [ { dest := 0, urlIndex := 0, payload := some "https://example.com" },
        { dest := 1, urlIndex := 1, payload := some
            "https://phet-dev.colorado.edu/html/build-an-atom/0.0.0-3/simple-text-only-test-page.html" },
        { dest := 2, urlIndex := 2, payload := some
            "https://www.york.ac.uk/teaching/cws/wws/webpage1.html" },
        { dest := 3, urlIndex := 3, payload := none } ] ∧
    mailboxOf (assignSeeds 8 seed_urls 4) 3 = [none] ∧
    ¬ (3 < seed_urls.length) := by
  decide

/-- C2 (code defect).  Two processes submit `[10]` and `[20, 21]`.  The call
passes the counts as displacements, so the block of rank 0 lands at index 1
and the block of rank 1 at index 2: the receive buffer becomes
`[x, 10, 20, 21]` with `x` its old first entry, not the concatenation
`[10, 20, 21]`, and two processes whose buffers differed before still
differ. -/
theorem C2_gatherAllLinks_uses_counts_as_displacements :
    concatInRankOrder [[10, 11], [20, 21]] [1, 2] = [10, 20, 21] ∧
    gatherAllLinks [[10, 11], [20, 21]] [1, 2] [0, 0, 0, 0] = [0, 10, 20, 21] ∧
    gatherAllLinks [[10, 11], [20, 21]] [1, 2] [7, 7, 7, 7] = [7, 10, 20, 21] ∧
    (gatherAllLinks [[10, 11], [20, 21]] [1, 2] [0, 0, 0, 0]).take 3 ≠
      concatInRankOrder [[10, 11], [20, 21]] [1, 2] ∧
    gatherAllLinks [[10, 11], [20, 21]] [1, 2] [0, 0, 0, 0] ≠
      gatherAllLinks [[10, 11], [20, 21]] [1, 2] [7, 7, 7, 7] := by
  decide

/-- C3 (code defect).  The transfer succeeds and leaves the page `<a>` in
`pageBuffer`; extraction from those bytes finds two links, but the round
submits none, because the extractor is called on `cleanedHTML`.  The submitted
buffer is the extraction from `cleanedHTML` and is the same for every content
of `pageBuffer`. -/
theorem C3_extraction_reads_cleanedHTML_not_pageBuffer :
    (ExtractLinksFromHTML sampleParser sampleEnv.pageBuffer emptyLinks).numLinks = 2 ∧
    (fetchAndExtract sampleParser sampleEnv emptyLinks).numLinks = 0 ∧
    (∀ (parse : List Nat → Option htmlDoc) (env : RoundEnv) (b : LinkBuffer),
      env.fetchOk = true →
        fetchAndExtract parse env b = ExtractLinksFromHTML parse env.cleanedHTML b) ∧
    (∀ (parse : List Nat → Option htmlDoc) (env : RoundEnv) (page : List Nat) (b : LinkBuffer),
      fetchAndExtract parse { env with pageBuffer := page } b = fetchAndExtract parse env b) := by
  refine ⟨by decide, by decide, ?_, ?_⟩
  · intro parse env b h
    unfold fetchAndExtract
    rw [if_pos h]
  · intro parse env page b
    rfl

/-- C4 (code defect).  The anchors of `samplePage` carry the hrefs
`[a, b, c, d]` and sit below `html > body`.  The loop starts at the root
element and follows `next` only, so it never reaches them: nothing is stored
and `numLinks` stays 0, where the claim asks for `[a, b]`.  In general the
children of a node have no influence on the result. -/
theorem C4_extraction_misses_nested_anchors :
    documentHrefs samplePage.children = ["a", "b", "c", "d"] ∧
    (documentHrefs samplePage.children).take MAX_LINKS_PER_PROCESS = ["a", "b"] ∧
    ExtractLinksFromHTML (fun _ => some samplePage) [] emptyLinks = emptyLinks ∧
    (ExtractLinksFromHTML (fun _ => some samplePage) [] emptyLinks).numLinks = 0 ∧
    (∀ (ty : xmlElementType) (name : Option String) (props : List (String × String))
      (children next : xmlNodePtr) (b : LinkBuffer),
      extractLoop (.node ty name props children next) b =
        extractLoop (.node ty name props .NULL next) b) := by
  refine ⟨by decide, by decide, by decide, by decide, ?_⟩
  intro ty name props children next b
  rfl

/-- C6 (code defect).  Seeds `["https://example.com"]`, one process.  Rank 0
sends the seed once, so one message is pending when the loop starts.  Round 1
receives and fetches it; round 2 calls `MPI_Recv` with no message left, which
never returns: one fetch, `pagesCrawled = 1`, and the loop is never left.  The
same holds for each of the three ranks of the program run with three
processes. -/
theorem C6_second_round_waits_in_recv (parse : List Nat → Option htmlDoc)
    (env : Nat → RoundEnv) :
    mailboxOf (assignSeeds 8 ["https://example.com"] 1) 0 = [some "https://example.com"] ∧
    (crawlLoop parse env ["https://example.com"] (initProc 0 1)).1 = LoopExit.blockedInRecv ∧
    (crawlLoop parse env ["https://example.com"] (initProc 0 1)).2.pagesCrawled = 1 ∧
    (crawlLoop parse env ["https://example.com"] (initProc 0 1)).2.log.map (fun r => r.url) =
      ["https://example.com"] ∧
    (∀ i, i < 3 → mailboxOf (assignSeeds 8 seed_urls 3) i = [seed_urls.get? i]) ∧
    (∀ (url : String) (rank size : Nat), url ≠ "" →
      (crawlLoop parse env [url] (initProc rank size)).1 = LoopExit.blockedInRecv ∧
      (crawlLoop parse env [url] (initProc rank size)).2.pagesCrawled = 1) := by
  have hgen : ∀ (url : String) (rank size : Nat), url ≠ "" →
      crawlLoop parse env [url] (initProc rank size) =
        (LoopExit.blockedInRecv, roundBody parse (env 0) url (initProc rank size)) := by
    intro url rank size hu
    have h0 : (initProc rank size).pagesCrawled < MAX_PAGES_TO_CRAWL :=
      show 0 < 4 by decide
    have h1 : (roundBody parse (env (initProc rank size).pagesCrawled) url
        (initProc rank size)).pagesCrawled < MAX_PAGES_TO_CRAWL :=
      show 0 + 1 < 4 by decide
    unfold crawlLoop
    rw [if_pos h0, if_neg hu]
    unfold crawlLoop
    rw [if_pos h1]
    rfl
  refine ⟨by decide, ?_, ?_, ?_, by decide, ?_⟩
  · rw [hgen _ _ _ (by decide)]
  · rw [hgen _ _ _ (by decide)]
    rfl
  · rw [hgen _ _ _ (by decide)]
    rfl
  · intro url rank size hu
    rw [hgen url rank size hu]
    exact ⟨rfl, rfl⟩

/-- C7, counterexample.  Rank 1 of 2 receives an empty URL in its first
round: it leaves the loop by the `break`, its state is untouched
(`pagesCrawled` stays 0, the log holds no round), and the round of the fleet
never completes. -/
theorem C7_counterexample_empty_url_breaks :
    crawlLoop sampleParser (fun _ => sampleEnv) ["", "https://example.com"] (initProc 1 2) =
      (LoopExit.brokeOnEmptyUrl, initProc 1 2) ∧
    (initProc 1 2).pagesCrawled = 0 ∧ (initProc 1 2).log = [] ∧
    fleetRound sampleParser
      [ { proc := initProc 0 2, msg := some "https://example.com", env := sampleEnv },
        { proc := initProc 1 2, msg := some "", env := sampleEnv } ] = none := by
  decide

/-- C7, amended.  In every round in which the URL a process receives is
empty, the process performs no fetch and leaves the round loop at once by the
`break` of line 111: its state stays as it was, so `pagesCrawled` does not
advance, no link is submitted and no round is logged; the process takes no
part in the aggregation step of that round. -/
theorem C7_empty_url_leaves_loop (parse : List Nat → Option htmlDoc) (env : Nat → RoundEnv)
    (rest : List String) (p : Proc) (h : p.pagesCrawled < MAX_PAGES_TO_CRAWL) :
    crawlLoop parse env ("" :: rest) p = (LoopExit.brokeOnEmptyUrl, p) ∧
    (∀ e : RoundEnv, reachesAllgather { proc := p, msg := some "", env := e } = false) := by
  constructor
  · unfold crawlLoop
    rw [if_pos h, if_pos rfl]
  · intro e
    simp [reachesAllgather]

/-- C7, witness: rank 1 of 2 before its first round, the first pending
message empty. -/
theorem C7_empty_url_leaves_loop_witness :
    (initProc 1 2).pagesCrawled < MAX_PAGES_TO_CRAWL ∧
    crawlLoop sampleParser (fun _ => sampleEnv) ["", "https://example.com"] (initProc 1 2) =
      (LoopExit.brokeOnEmptyUrl, initProc 1 2) :=
  ⟨by decide,
    (C7_empty_url_leaves_loop sampleParser (fun _ => sampleEnv) ["https://example.com"]
      (initProc 1 2) (by decide)).1⟩

/-- C8.  Partial-failure accounting.  Take any run of completed rounds of a
fleet of `size` processes (none for the first round) and a further round
entered by every rank (the loop condition holds and each rank receives a URL
that is not empty).  That round completes, and the total every process
computes is the sum over the ranks of the counts submitted in this round.  A
rank whose transfer failed submits 0, whatever it found in earlier rounds, so
the total is 0 when every transfer failed; `pagesCrawled` advances on every
rank. -/
theorem C8_total_is_sum_of_submitted_counts (parse : List Nat → Option htmlDoc) (size : Nat)
    (earlier : List (Nat → Option String × RoundEnv)) (ins : Nat → Option String × RoundEnv)
    (ps : List Proc)
    (hrun : fleetRun parse earlier (initFleet size) = some ps)
    (hloop : earlier.length < MAX_PAGES_TO_CRAWL)
    (hmsg : ∀ i, i < size → ∃ u, (ins i).1 = some u ∧ u ≠ "") :
    ∃ ps1, fleetRound parse (attachInputs ins ps) = some ps1 ∧ ps1.length = size ∧
      (∀ q ∈ ps1, ∃ rec, q.log.getLast? = some rec ∧
        rec.totalNumLinks = (ps1.map lastNumLinks).sum ∧
        rec.fetchOk = (ins q.rank).2.fetchOk ∧
        (rec.fetchOk = false → rec.numLinks = 0) ∧
        rec.pagesCrawled = earlier.length ∧ q.pagesCrawled = earlier.length + 1) ∧
      ((∀ i, i < size → (ins i).2.fetchOk = false) → (ps1.map lastNumLinks).sum = 0) := by
  have hF : FleetAt size earlier.length ps := by
    have := fleetRun_FleetAt parse size earlier 0 _ ps (initFleet_FleetAt size) hrun
    simpa using this
  have hall := reachesAllgather_attach ins size earlier.length ps hF hloop hmsg
  have hlast : ((attachInputs ins ps).map (fun r =>
      finishRound ((attachInputs ins ps).map (submittedCount parse)) r.env (r.msg.getD "") r.proc
        (fetchAndExtract parse r.env r.proc.buf))).map lastNumLinks =
      (attachInputs ins ps).map (submittedCount parse) := by
    rw [List.map_map]
    apply List.map_congr_left
    intro r _
    exact lastNumLinks_finishRound _ _ _ _ _
  have hcount : ((attachInputs ins ps).map (submittedCount parse)).length = size := by
    simp [attachInputs, hF.length]
  refine ⟨_, by unfold fleetRound; rw [if_pos hall], ?_, ?_, ?_⟩
  · simp [attachInputs, hF.length]
  · intro q hq
    obtain ⟨r, hr, rfl⟩ := List.mem_map.mp hq
    unfold attachInputs at hr
    obtain ⟨p, hp, rfl⟩ := List.mem_map.mp hr
    obtain ⟨-, h2, h3, h4⟩ := hF.mem p hp
    refine ⟨_, finishRound_getLast _ _ _ _ _, ?_, rfl, ?_, h4, by simp [finishRound, h4]⟩
    · rw [hlast]
      show sumTotalLinks p.size _ = _
      rw [h2, ← hcount]
      exact sumTotalLinks_Allgather _ _
    · intro hf
      show (fetchAndExtract parse (ins p.rank).2 p.buf).numLinks = 0
      have hf2 : (ins p.rank).2.fetchOk = false := hf
      unfold fetchAndExtract
      rw [hf2]
      exact h3
  · intro hfail
    rw [hlast]
    apply List.sum_eq_zero
    intro c hc
    obtain ⟨r, hr, rfl⟩ := List.mem_map.mp hc
    unfold attachInputs at hr
    obtain ⟨p, hp, rfl⟩ := List.mem_map.mp hr
    obtain ⟨h1, -, h3, -⟩ := hF.mem p hp
    show (fetchAndExtract parse (ins p.rank).2 p.buf).numLinks = 0
    unfold fetchAndExtract
    rw [hfail p.rank h1]
    exact h3

/-- C8, witness: three processes, a first round in which every transfer
succeeds, then a second round in which the transfer of rank 1 fails. -/
theorem C8_total_is_sum_of_submitted_counts_witness :
    fleetRun sampleParser [sampleRound] (initFleet 3) = some fleetAfterSampleRound ∧
    ∃ ps1, fleetRound sampleParser (attachInputs sampleRoundRank1Fails fleetAfterSampleRound) =
      some ps1 ∧ ps1.length = 3 :=
  ⟨by decide,
    match C8_total_is_sum_of_submitted_counts sampleParser 3 [sampleRound] sampleRoundRank1Fails fleetAfterSampleRound
      (by decide) (by decide) (fun _ _ => ⟨"https://example.com", rfl, by decide⟩) with
    | ⟨ps1, h1, h2, _⟩ => ⟨ps1, h1, h2⟩⟩

/-- C9.  Local buffer bound.  Entered with `numLinks <= MAX_LINKS_PER_PROCESS`,
`ExtractLinksFromHTML` returns with `numLinks <= MAX_LINKS_PER_PROCESS` and all
its stores into `discoveredLinks` are at indices below
`MAX_LINKS_PER_PROCESS`, for every parser result and content.  In a round the
bound holds after the extraction and `numLinks` is 0 after the reset; in every
run of the loop `numLinks` is 0 before the first round, every round is entered
with `numLinks = 0` and submits at most `MAX_LINKS_PER_PROCESS` links, and
`numLinks` is 0 when the loop ends. -/
theorem C9_numLinks_bounded (parse : List Nat → Option htmlDoc) (htmlContent : List Nat)
    (b : LinkBuffer) (h : b.numLinks ≤ MAX_LINKS_PER_PROCESS) :
    (ExtractLinksFromHTML parse htmlContent b).numLinks ≤ MAX_LINKS_PER_PROCESS ∧
    (∃ added : List Nat,
      (ExtractLinksFromHTML parse htmlContent b).stores = b.stores ++ added ∧
        ∀ i ∈ added, i < MAX_LINKS_PER_PROCESS) ∧
    (∀ (env : RoundEnv) (url : String) (p : Proc), p.buf.numLinks ≤ MAX_LINKS_PER_PROCESS →
      (fetchAndExtract parse env p.buf).numLinks ≤ MAX_LINKS_PER_PROCESS ∧
        (roundBody parse env url p).buf.numLinks = 0) ∧
    (∀ (env : Nat → RoundEnv) (mailbox : List String) (rank size : Nat),
      (initProc rank size).buf.numLinks = 0 ∧
      (crawlLoop parse env mailbox (initProc rank size)).2.buf.numLinks = 0 ∧
      ∀ r ∈ (crawlLoop parse env mailbox (initProc rank size)).2.log,
        r.numLinksAtEntry = 0 ∧ r.numLinks ≤ MAX_LINKS_PER_PROCESS) := by
  refine ⟨(ExtractLinksFromHTML_bound parse htmlContent b h).1,
    (ExtractLinksFromHTML_bound parse htmlContent b h).2, ?_, ?_⟩
  · intro env url p hp
    exact ⟨(fetchAndExtract_bound parse env p.buf hp).1, rfl⟩
  · intro env mailbox rank size
    exact ⟨rfl, crawlLoop_numLinks parse env mailbox (initProc rank size) rfl
      (fun r hr => absurd hr (by simp [initProc]))⟩

/-- C9, witness: a buffer that already holds one link, and a page with three
anchors. -/
theorem C9_numLinks_bounded_witness :
    (storeLink emptyLinks "x").numLinks ≤ MAX_LINKS_PER_PROCESS ∧
    (ExtractLinksFromHTML sampleParser [60, 97, 62, 0] (storeLink emptyLinks "x")).numLinks ≤
      MAX_LINKS_PER_PROCESS :=
  ⟨by decide,
    (C9_numLinks_bounded sampleParser [60, 97, 62, 0] (storeLink emptyLinks "x") (by decide)).1⟩

/-- C10 (code defect).  A chunk of 4097 bytes (`size = 1`, `nmemb = 4097`):
`memcpy` copies all of it, so a byte is stored at index 4096, one past the
last element of the 4096-byte `pageBuffer`. -/
theorem C10_WriteCallback_stores_past_pageBuffer :
    (WriteCallback (fun _ => 65) 1 4097).returned = 4097 ∧
    (4096, 65) ∈ (WriteCallback (fun _ => 65) 1 4097).writes ∧
    (4096, 65) ∈ fetchWrites [((fun _ => 65), 1, 4097)] ∧
    ¬ (4096 < PAGE_BUFFER_SIZE) := by
  have hm : (4096, 65) ∈ (WriteCallback (fun _ => 65) 1 4097).writes :=
    (WriteCallback_writes_mem (fun _ => 65) 1 4097 4096 65).mpr
      ⟨by norm_num [SIZE_T_MODULUS], rfl⟩
  refine ⟨by norm_num [WriteCallback, SIZE_T_MODULUS], hm, ?_, by decide⟩
  unfold fetchWrites
  simpa using hm

end WebCrawler
